import Mathlib

/-!
Verification of the core logic of the country-app-frontend repository:
the UTC-offset parser `parseUtcOffsetMinutes`, the local-time renderer
`timeForOffset`, the client-side country filter `filterCountries`
(src/hooks/useCountries.ts) and the fallback behaviour of `search`.

JavaScript strings are embedded as Lean `String` values at API
boundaries and as `List Char` internally.  The JS string methods used by
the source (`trim`, `toUpperCase`, `toLowerCase`, `includes`,
`startsWith`, `slice`, one-occurrence `replace`) are modelled by
structurally recursive functions on `List Char` below; case conversion
is ASCII, which is what the relevant inputs (offset strings such as
"UTC+05:30", country names, capitals) use.
-/

namespace CountryApp

/-- JS whitespace characters relevant to `String.prototype.trim` (ASCII part). -/
def jsWhitespaceChar (c : Char) : Bool :=
  c == ' ' || c == '\t' || c == '\n' || c == '\r' || c == '\x0b' || c == '\x0c'

/-- JS `str.trim()`: drop whitespace from both ends. -/
def jsTrim (l : List Char) : List Char :=
  ((l.dropWhile jsWhitespaceChar).reverse.dropWhile jsWhitespaceChar).reverse

/-- ASCII upper-casing of a single character, as JS `toUpperCase` does for ASCII. -/
def upperAscii (c : Char) : Char :=
  if 97 ≤ c.toNat ∧ c.toNat ≤ 122 then Char.ofNat (c.toNat - 32) else c

/-- ASCII lower-casing of a single character, as JS `toLowerCase` does for ASCII. -/
def lowerAscii (c : Char) : Char :=
  if 65 ≤ c.toNat ∧ c.toNat ≤ 90 then Char.ofNat (c.toNat + 32) else c

/-- JS `str.toUpperCase()` (ASCII). -/
def jsToUpper (l : List Char) : List Char := l.map upperAscii

/-- JS `str.toLowerCase()` (ASCII). -/
def jsToLower (l : List Char) : List Char := l.map lowerAscii

/-- JS `hay.includes(needle)`: substring containment. -/
def includesSub : List Char → List Char → Bool
  | [], needle => needle.isEmpty
  | c :: rest, needle => needle.isPrefixOf (c :: rest) || includesSub rest needle

/-- JS `str.replace(pat, "")` with a string pattern: remove the FIRST
occurrence of `pat` only (JS `replace` with a string argument replaces a
single occurrence). -/
def removeFirstOcc (pat : List Char) : List Char → List Char
  | [] => []
  | c :: rest =>
    if pat.isPrefixOf (c :: rest) then (c :: rest).drop pat.length
    else c :: removeFirstOcc pat rest

/-! ## Offset parser

Source (`parseUtcOffsetMinutes`, duplicated in CountryCard and the two
CountryDetail variants):

```ts
let str = offset.trim().toUpperCase();
if (str === "UTC" || str === "GMT" || str === "Z") return 0;
if (str.startsWith("UTC")) str = str.slice(3);
if (str.startsWith("GMT")) str = str.slice(3);
if (str === "") return 0;
const m = str.match(/^([+-])(\d{1,2})(?::?(\d{2}))?$/);
if (!m) return null;
const sign = m[1] === "-" ? -1 : 1;
const hours = parseInt(m[2], 10);
const minutes = m[3] ? parseInt(m[3], 10) : 0;
return sign * (hours * 60 + minutes);
```
-/

/-- Regex `\d`: an ASCII digit. -/
def isDigitChar (c : Char) : Bool := 48 ≤ c.toNat && c.toNat ≤ 57

/-- Numeric value of an ASCII digit (`parseInt` on a digit). -/
def digitVal (c : Char) : Nat := c.toNat - 48

/-- Hours/minutes part of the regex `(\d{1,2})(?::?(\d{2}))?` applied to the
characters after the sign, with JS backtracking semantics.  The accepted
shapes, enumerated exhaustively, are: `D`, `DD`, `DDD` (hour backtracks to
one digit), `DDDD`, `D:DD` and `DD:DD`.  Returns `(hours, minutes)`. -/
def parseHM : List Char → Option (Nat × Nat)
  | [a] => if isDigitChar a then some (digitVal a, 0) else none
  | [a, b] =>
    if isDigitChar a && isDigitChar b then some (10 * digitVal a + digitVal b, 0) else none
  | [a, b, c] =>
    if isDigitChar a && isDigitChar b && isDigitChar c then
      some (digitVal a, 10 * digitVal b + digitVal c)
    else none
  | [a, b, c, d] =>
    if b == ':' then
      if isDigitChar a && isDigitChar c && isDigitChar d then
        some (digitVal a, 10 * digitVal c + digitVal d)
      else none
    else
      if isDigitChar a && isDigitChar b && isDigitChar c && isDigitChar d then
        some (10 * digitVal a + digitVal b, 10 * digitVal c + digitVal d)
      else none
  | [a, b, c, d, e] =>
    if c == ':' && (isDigitChar a && isDigitChar b && isDigitChar d && isDigitChar e) then
      some (10 * digitVal a + digitVal b, 10 * digitVal d + digitVal e)
    else none
  | _ => none

/-- The full regex `^([+-])(\d{1,2})(?::?(\d{2}))?$` together with the final
`sign * (hours * 60 + minutes)` computation. -/
def parseSignedRemainder (l : List Char) : Option Int :=
  match l with
  | c :: rest =>
    if c == '+' || c == '-' then
      match parseHM rest with
      | some (h, m) => some ((if c == '-' then -1 else 1) * ((h : Int) * 60 + (m : Int)))
      | none => none
    else none
  | [] => none

/-- The second prefix-stripping statement of the source:
`if (str.startsWith("GMT")) str = str.slice(3);`. -/
def stripGmtStep (str : List Char) : List Char :=
  if "GMT".toList.isPrefixOf str then str.drop 3 else str

/-- The two sequential prefix-stripping statements of the source:
first a leading `"UTC"` is removed if present, then a leading `"GMT"` is
removed from the result if present. -/
def stripUtcGmt (str : List Char) : List Char :=
  stripGmtStep (if "UTC".toList.isPrefixOf str then str.drop 3 else str)

/-- The early-return test `str === "UTC" || str === "GMT" || str === "Z"`. -/
def specialZero (str : List Char) : Bool :=
  str == "UTC".toList || str == "GMT".toList || str == "Z".toList

/-- Body of `parseUtcOffsetMinutes` after normalization. -/
def parseOffsetChars (str : List Char) : Option Int :=
  if specialZero str then some 0
  else if (stripUtcGmt str).isEmpty then some 0
  else parseSignedRemainder (stripUtcGmt str)

/-- The source's `parseUtcOffsetMinutes(offset)`; `none` models `null`. -/
def parseUtcOffsetMinutes (offset : String) : Option Int :=
  parseOffsetChars (jsToUpper (jsTrim offset.toList))

/-- Shapes of character lists accepted by `(\d{1,2})(?::?(\d{2}))?$`
(with backtracking), stated as a recognizer without computing values. -/
def hourMinShape : List Char → Bool
  | [a] => isDigitChar a
  | [a, b] => isDigitChar a && isDigitChar b
  | [a, b, c] => isDigitChar a && isDigitChar b && isDigitChar c
  | [a, b, c, d] =>
    if b == ':' then isDigitChar a && isDigitChar c && isDigitChar d
    else isDigitChar a && isDigitChar b && isDigitChar c && isDigitChar d
  | [a, b, c, d, e] =>
    c == ':' && (isDigitChar a && isDigitChar b && isDigitChar d && isDigitChar e)
  | _ => false

/-- Recognizer for the whole remainder pattern `^([+-])...$`. -/
def signShape : List Char → Bool
  | c :: rest => (c == '+' || c == '-') && hourMinShape rest
  | [] => false

/-- Modelled from the spec for comparison with the source parser: the spec
says "Strip a leading `UTC` or `GMT` prefix if present (only one, and only
if the string starts with it)", i.e. at most ONE prefix is ever removed. -/
def parseOffsetSingleStrip (offset : String) : Option Int :=
  let str := jsToUpper (jsTrim offset.toList)
  if specialZero str then some 0
  else
    let s1 :=
      if "UTC".toList.isPrefixOf str then str.drop 3
      else if "GMT".toList.isPrefixOf str then str.drop 3
      else str
    if s1.isEmpty then some 0 else parseSignedRemainder s1

/-! ## Data model (src/types, `Country` and `SearchParams`) -/

/-- The `Country` interface.  `capital?: string` is an optional field. -/
structure Country where
  code : String
  name : String
  flag : String
  region : String
  capital : Option String
  population : Nat
  currencies : List String
  languages : List String
  timezones : List String
deriving DecidableEq

/-- The `SearchParams` interface: every filter field is optional. -/
structure SearchParams where
  name : Option String := none
  region : Option String := none
  timezone : Option String := none
  capital : Option String := none
deriving DecidableEq

/-- JS truthiness of an optional string field (`filters.name && ...`):
present and non-empty. -/
def present : Option String → Bool
  | some s => !s.toList.isEmpty
  | none => false

/-- Value of an optional string field at a use site where it is truthy. -/
def optStr : Option String → String
  | some s => s
  | none => ""

/-! ## Client-side filter (`filterCountries` in src/hooks/useCountries.ts)

```ts
return countries.filter((country) => {
  if (filters.name && !country.name.toLowerCase().includes(filters.name.toLowerCase()))
    return false;
  if (filters.capital && country.capital &&
      !country.capital.toLowerCase().includes(filters.capital.toLowerCase()))
    return false;
  if (filters.region && country.region !== filters.region) return false;
  if (filters.timezone && country.timezones && country.timezones.length > 0) {
    const filterTimezone = filters.timezone.toLowerCase().trim();
    const hasMatchingTimezone = country.timezones.some((tz) => {
      const countryTz = tz.toLowerCase().trim();
      if (countryTz === filterTimezone) return true;
      if (countryTz.includes(filterTimezone) || filterTimezone.includes(countryTz)) return true;
      if (filterTimezone.startsWith("utc") && countryTz.startsWith("utc")) {
        const filterOffset = filterTimezone.replace("utc", "").replace(":", "");
        const countryOffset = countryTz.replace("utc", "").replace(":", "");
        return filterOffset === countryOffset;
      }
      return false;
    });
    if (!hasMatchingTimezone) return false;
  }
  return true;
});
```
-/

/-- The per-entry timezone matcher (body of the `some` callback).
`filterTz` is the already-normalized criterion
`filters.timezone.toLowerCase().trim()`. -/
def tzEntryMatches (filterTz : List Char) (tzRaw : String) : Bool :=
  let countryTz := jsTrim (jsToLower tzRaw.toList)
  if countryTz == filterTz then true
  else if includesSub countryTz filterTz || includesSub filterTz countryTz then true
  else if "utc".toList.isPrefixOf filterTz && "utc".toList.isPrefixOf countryTz then
    removeFirstOcc [':'] (removeFirstOcc "utc".toList filterTz)
      == removeFirstOcc [':'] (removeFirstOcc "utc".toList countryTz)
  else false

/-- `country.timezones.some(tz => ...)` with the normalized criterion. -/
def hasMatchingTimezone (criterion : String) (tzs : List String) : Bool :=
  tzs.any (tzEntryMatches (jsTrim (jsToLower criterion.toList)))

/-- Condition of the first early return (name criterion fails). -/
def nameBlocks (filters : SearchParams) (country : Country) : Bool :=
  present filters.name &&
    !(includesSub (jsToLower country.name.toList) (jsToLower (optStr filters.name).toList))

/-- JS truthiness of `country.capital` (present and non-empty). -/
def capTruthy : Option String → Bool
  | some s => !s.toList.isEmpty
  | none => false

/-- Condition of the second early return (capital criterion fails on a
record whose capital is truthy). -/
def capitalBlocks (filters : SearchParams) (country : Country) : Bool :=
  present filters.capital && capTruthy country.capital &&
    !(includesSub (jsToLower (optStr country.capital).toList)
        (jsToLower (optStr filters.capital).toList))

/-- Condition of the third early return (region criterion fails;
`!==` is exact, case-sensitive). -/
def regionBlocks (filters : SearchParams) (country : Country) : Bool :=
  present filters.region && !(country.region == optStr filters.region)

/-- Guard of the timezone block: criterion truthy AND the record's
timezone list non-empty. -/
def tzActive (filters : SearchParams) (country : Country) : Bool :=
  present filters.timezone && !country.timezones.isEmpty

/-- The filter callback, translated early return by early return. -/
def countryPasses (filters : SearchParams) (country : Country) : Bool :=
  if nameBlocks filters country then false
  else if capitalBlocks filters country then false
  else if regionBlocks filters country then false
  else if tzActive filters country then
    hasMatchingTimezone (optStr filters.timezone) country.timezones
  else true

/-- `filterCountries(countries, filters)` = `countries.filter(callback)`. -/
def filterCountries (countries : List Country) (filters : SearchParams) : List Country :=
  countries.filter (countryPasses filters)

/-- Name predicate of the conjunction decomposition: passes unless blocked. -/
def namePasses (filters : SearchParams) (country : Country) : Bool :=
  !nameBlocks filters country

/-- Capital predicate of the conjunction decomposition. -/
def capitalPasses (filters : SearchParams) (country : Country) : Bool :=
  !capitalBlocks filters country

/-- Region predicate of the conjunction decomposition. -/
def regionPasses (filters : SearchParams) (country : Country) : Bool :=
  !regionBlocks filters country

/-- Timezone predicate of the conjunction decomposition: vacuously true
when the timezone block is inactive. -/
def timezonePasses (filters : SearchParams) (country : Country) : Bool :=
  !tzActive filters country || hasMatchingTimezone (optStr filters.timezone) country.timezones

/-- Modelled from the spec for comparison with the source matcher: rule (c)
per the spec strips the `"utc"` prefix and ALL colon characters from both
sides before comparing ("strip that prefix and all colon characters from
both sides"), where the source's `replace(":", "")` removes only the first
colon. -/
def tzEntryMatchesAllColons (filterTz : List Char) (tzRaw : String) : Bool :=
  let countryTz := jsTrim (jsToLower tzRaw.toList)
  if countryTz == filterTz then true
  else if includesSub countryTz filterTz || includesSub filterTz countryTz then true
  else if "utc".toList.isPrefixOf filterTz && "utc".toList.isPrefixOf countryTz then
    (removeFirstOcc "utc".toList filterTz).filter (fun c => !(c == ':'))
      == (removeFirstOcc "utc".toList countryTz).filter (fun c => !(c == ':'))
  else false

/-! ## Local-time renderer (`timeForOffset`)

```ts
const now = new Date();
const utcMs = now.getTime() + now.getTimezoneOffset() * 60000;
const target = new Date(utcMs + minutesOffset * 60000);
return target.toLocaleString("en-US", { hour: "numeric", minute: "2-digit", hour12: true });
```

With the "now" UTC instant injected as `nowUtcMillis` (the spec's
`renderLocalTime(offsetMinutes, nowUtcMillis)` contract), the rendered
wall-clock time is determined by the minute-of-day of the target
timestamp; JS `Date` field extraction is floor-based on milliseconds
since the epoch, i.e. Euclidean `/` and `%` for the positive divisors
used here. -/

/-- The target timestamp `utcMs + minutesOffset * 60000`. -/
def timeForOffsetTargetMs (nowUtcMillis offsetMinutes : Int) : Int :=
  nowUtcMillis + offsetMinutes * 60000

/-- Minute of day (0..1439) a JS `Date` displays for an epoch timestamp. -/
def minuteOfDay (ms : Int) : Int := (ms / 60000) % 1440

/-- The time-of-day rendered by `timeForOffset` for a given offset and an
injected "now": a pure function of its two arguments (deterministic). -/
def renderLocalTimeMinute (offsetMinutes nowUtcMillis : Int) : Int :=
  minuteOfDay (timeForOffsetTargetMs nowUtcMillis offsetMinutes)

/-! ## Search fallback (`search` in src/hooks/useCountries.ts)

State effect of one `search(params)` call, as a function of the remote
call's outcome.  `allCountries` is the cached full list, `prev` the
currently displayed list.  In the source, `setError(null)` runs first;
the catch branch re-sets the error only when the cache is empty.
-/

/-- Outcome of the `searchCountries` backend call. -/
inductive RemoteOutcome where
  | ok (results : List Country)
  | failed (msg : String)
deriving DecidableEq

/-- Displayed-list / error state after a `search` call. -/
structure SearchState where
  countries : List Country
  error : Option String
deriving DecidableEq

/-- The `try`/`catch` body of `search`:
on success, fall back to the client filter only for a timezone-bearing
query with zero results and a non-empty cache; on failure, fall back to
the client filter whenever the cache is non-empty (leaving the error
cleared), and set the error only when the cache is empty. -/
def searchApply (allCountries prev : List Country) (params : SearchParams)
    (remote : RemoteOutcome) : SearchState :=
  match remote with
  | .ok results =>
    if present params.timezone && results.isEmpty && !allCountries.isEmpty then
      { countries := filterCountries allCountries params, error := none }
    else
      { countries := results, error := none }
  | .failed msg =>
    if !allCountries.isEmpty then
      { countries := filterCountries allCountries params, error := none }
    else
      { countries := prev, error := some msg }

end CountryApp

namespace CountryApp

/-- A concrete record with every criterion-relevant field populated. -/
def demoFrance : Country :=
  { code := "FR", name := "France", flag := "", region := "Europe",
    capital := some "Paris", population := 68000000,
    currencies := ["EUR"], languages := ["French"],
    timezones := ["UTC+01:00"] }

/-- A concrete record with no capital. -/
def demoNoCapital : Country :=
  { code := "BV", name := "Bouvet Island", flag := "", region := "Antarctic",
    capital := none, population := 0,
    currencies := [], languages := [], timezones := ["UTC+01:00"] }

/-- A concrete record with an empty timezone list. -/
def demoNoTz : Country :=
  { code := "HM", name := "Heard Island", flag := "", region := "Antarctic",
    capital := none, population := 0,
    currencies := [], languages := [], timezones := [] }

/-- A concrete record whose single timezone entry contains two colons. -/
def demoTwoColons : Country :=
  { code := "XX", name := "Colonia", flag := "", region := "Test",
    capital := some "Double Colon", population := 1,
    currencies := [], languages := [], timezones := ["UTC+01:00:00"] }

example : parseUtcOffsetMinutes "UTC+05:30" = some 330 := by decide
example : parseUtcOffsetMinutes "UTC-08:00" = some (-480) := by decide
example : parseUtcOffsetMinutes "+09" = some 540 := by decide
example : parseUtcOffsetMinutes " gmt " = some 0 := by decide
example : parseUtcOffsetMinutes "5" = none := by decide
example : parseUtcOffsetMinutes "garbage" = none := by decide
example : parseUtcOffsetMinutes "UTCGMT+01" = some 60 := by decide
example : parseOffsetSingleStrip "UTCGMT+01" = none := by decide
example : parseUtcOffsetMinutes "+0130" = some 90 := by decide
example : parseUtcOffsetMinutes "+123" = some 83 := by decide
example : parseUtcOffsetMinutes "+00:99" = some 99 := by decide
example : parseUtcOffsetMinutes "+100:00" = none := by decide
example : parseUtcOffsetMinutes "+1:23:45" = none := by decide

example : filterCountries [demoFrance, demoNoCapital] { name := some "fran" } = [demoFrance] := by
  decide
example : filterCountries [demoFrance] {} = [demoFrance] := by decide
example : filterCountries [demoNoCapital] { capital := some "a" } = [demoNoCapital] := by decide
example : filterCountries [demoFrance] { capital := some "par" } = [demoFrance] := by decide
example : filterCountries [demoFrance] { capital := some "zz" } = [] := by decide
example : filterCountries [demoNoTz] { timezone := some "UTC+05" } = [demoNoTz] := by decide
example : filterCountries [demoFrance] { timezone := some "UTC+01" } = [demoFrance] := by decide
example : filterCountries [demoFrance] { timezone := some "1" } = [demoFrance] := by decide
example : filterCountries [demoFrance] { timezone := some "UTC+02" } = [] := by decide
example : filterCountries [demoTwoColons] { timezone := some "utc+010000" } = [] := by decide
example :
    tzEntryMatchesAllColons "utc+010000".toList "UTC+01:00:00" = true := by decide
example : tzEntryMatches "utc+010000".toList "UTC+01:00:00" = false := by decide
example : filterCountries [demoFrance] { region := some "Europe" } = [demoFrance] := by decide
example : filterCountries [demoFrance] { region := some "europe" } = [] := by decide
example :
    searchApply [demoFrance] [] { name := some "x" } (.failed "boom")
      = { countries := [], error := none } := by decide
example :
    searchApply [] [demoFrance] { name := some "x" } (.failed "boom")
      = { countries := [demoFrance], error := some "boom" } := by decide

/-! ## Helper lemmas -/

/-- The early-return chain of the filter callback is the conjunction of
the four per-field predicates. -/
theorem countryPasses_eq_conj (f : SearchParams) (c : Country) :
    countryPasses f c =
      (namePasses f c && capitalPasses f c && regionPasses f c && timezonePasses f c) := by
  unfold countryPasses namePasses capitalPasses regionPasses timezonePasses
  cases hn : nameBlocks f c <;> cases hc : capitalBlocks f c <;>
    cases hr : regionBlocks f c <;> cases ht : tzActive f c <;> simp

/-- With no criteria present, every record passes the filter callback. -/
theorem countryPasses_empty (c : Country) : countryPasses {} c = true := by
  simp [countryPasses, nameBlocks, capitalBlocks, regionBlocks, tzActive, present]

/-- `parseHM` succeeds exactly on the character lists of the accepted
hour/minute shapes. -/
theorem parseHM_isSome_eq_shape (l : List Char) : (parseHM l).isSome = hourMinShape l := by
  rcases l with _ | ⟨a, _ | ⟨b, _ | ⟨c, _ | ⟨d, _ | ⟨e, _ | ⟨g, t⟩⟩⟩⟩⟩⟩
  · rfl
  · simp only [parseHM, hourMinShape]; split <;> simp_all
  · simp only [parseHM, hourMinShape]; split <;> simp_all
  · simp only [parseHM, hourMinShape]; split <;> simp_all
  · simp only [parseHM, hourMinShape]; split <;> split <;> simp_all
  · simp only [parseHM, hourMinShape]; split <;> simp_all
  · rfl

/-- A remainder that does not fit the sign-and-digits pattern is parsed
to `none`. -/
theorem parseSignedRemainder_eq_none (l : List Char) (h : signShape l = false) :
    parseSignedRemainder l = none := by
  rcases l with _ | ⟨c, rest⟩
  · rfl
  · simp only [signShape, Bool.and_eq_false_iff] at h
    rcases h with h | h
    · simp [parseSignedRemainder, h]
    · have hp : parseHM rest = none := by
        have := parseHM_isSome_eq_shape rest
        rw [h] at this
        exact Option.not_isSome_iff_eq_none.mp (by simp [this])
      cases hc : (c == '+' || c == '-') <;> simp [parseSignedRemainder, hc, hp]

/-- A digit character has value at most 9. -/
theorem digitVal_le_nine (c : Char) (h : isDigitChar c = true) : digitVal c ≤ 9 := by
  simp only [isDigitChar, Bool.and_eq_true, decide_eq_true_eq] at h
  simp only [digitVal]
  omega

/-- The hour and minute parts produced by `parseHM` are both at most 99
(each comes from one or two digit characters). -/
theorem parseHM_bounds (l : List Char) (h m : Nat) (hp : parseHM l = some (h, m)) :
    h ≤ 99 ∧ m ≤ 99 := by
  rcases l with _ | ⟨a, _ | ⟨b, _ | ⟨c, _ | ⟨d, _ | ⟨e, _ | ⟨g, t⟩⟩⟩⟩⟩⟩ <;>
    simp only [parseHM] at hp
  · exact absurd hp (by simp)
  · split at hp
    · have h1 := digitVal_le_nine a (by assumption)
      simp only [Option.some.injEq, Prod.mk.injEq] at hp
      omega
    · exact absurd hp (by simp)
  · split at hp
    · rename_i hd
      simp only [Bool.and_eq_true] at hd
      obtain ⟨ha, hb⟩ := hd
      have h1 := digitVal_le_nine a ha
      have h2 := digitVal_le_nine b hb
      simp only [Option.some.injEq, Prod.mk.injEq] at hp
      omega
    · exact absurd hp (by simp)
  · split at hp
    · rename_i hd
      simp only [Bool.and_eq_true] at hd
      obtain ⟨⟨ha, hb⟩, hc⟩ := hd
      have h1 := digitVal_le_nine a ha
      have h2 := digitVal_le_nine b hb
      have h3 := digitVal_le_nine c hc
      simp only [Option.some.injEq, Prod.mk.injEq] at hp
      omega
    · exact absurd hp (by simp)
  · split at hp
    · split at hp
      · rename_i hd
        simp only [Bool.and_eq_true] at hd
        obtain ⟨⟨ha, hc⟩, hd4⟩ := hd
        have h1 := digitVal_le_nine a ha
        have h3 := digitVal_le_nine c hc
        have h4 := digitVal_le_nine d hd4
        simp only [Option.some.injEq, Prod.mk.injEq] at hp
        omega
      · exact absurd hp (by simp)
    · split at hp
      · rename_i hd
        simp only [Bool.and_eq_true] at hd
        obtain ⟨⟨⟨ha, hb⟩, hc⟩, hd4⟩ := hd
        have h1 := digitVal_le_nine a ha
        have h2 := digitVal_le_nine b hb
        have h3 := digitVal_le_nine c hc
        have h4 := digitVal_le_nine d hd4
        simp only [Option.some.injEq, Prod.mk.injEq] at hp
        omega
      · exact absurd hp (by simp)
  · split at hp
    · rename_i hd
      simp only [Bool.and_eq_true] at hd
      obtain ⟨hcol, ⟨⟨ha, hb⟩, hd4⟩, he⟩ := hd
      have h1 := digitVal_le_nine a ha
      have h2 := digitVal_le_nine b hb
      have h4 := digitVal_le_nine d hd4
      have h5 := digitVal_le_nine e he
      simp only [Option.some.injEq, Prod.mk.injEq] at hp
      omega
    · exact absurd hp (by simp)
  · exact absurd hp (by simp)

/-- Any successfully parsed remainder lies in `[-6039, 6039]`. -/
theorem parseSignedRemainder_bounds (l : List Char) (v : Int)
    (hp : parseSignedRemainder l = some v) : -6039 ≤ v ∧ v ≤ 6039 := by
  rcases l with _ | ⟨c, rest⟩
  · exact absurd hp (by simp [parseSignedRemainder])
  · simp only [parseSignedRemainder] at hp
    split at hp
    · rcases hm : parseHM rest with _ | ⟨h, m⟩
      · rw [hm] at hp; exact absurd hp (by simp)
      · rw [hm] at hp
        have hb := parseHM_bounds rest h m hm
        simp only [Option.some.injEq] at hp
        subst hp
        split <;> constructor <;> nlinarith [hb.1, hb.2]
    · exact absurd hp (by simp)

/-- A boolean prefix test certifies the obvious list decomposition. -/
theorem isPrefixOf_decomp (p : List Char) :
    ∀ l : List Char, p.isPrefixOf l = true → l = p ++ l.drop p.length := by
  induction p with
  | nil => intro l _; simp
  | cons a p ih =>
    intro l hl
    rcases l with _ | ⟨b, l⟩
    · simp [List.isPrefixOf] at hl
    · simp only [List.isPrefixOf, Bool.and_eq_true, beq_iff_eq] at hl
      obtain ⟨rfl, hp⟩ := hl
      simpa using ih l hp

/-! ## Claim theorems -/

/-- C1: `filterCountries` is the conjunction-of-predicates reference
filter: a record is in the output iff it is in the input and satisfies
every present field's predicate (name substring, capital substring,
region equality, timezone match); the output is an order-preserving
subsequence of the input; and an empty criteria record returns the input
list unchanged. -/
theorem filterCountries_reference_filter :
    (∀ (cs : List Country) (f : SearchParams) (c : Country),
        c ∈ filterCountries cs f ↔
          c ∈ cs ∧ namePasses f c = true ∧ capitalPasses f c = true ∧
            regionPasses f c = true ∧ timezonePasses f c = true)
    ∧ (∀ (cs : List Country) (f : SearchParams), (filterCountries cs f).Sublist cs)
    ∧ (∀ cs : List Country, filterCountries cs {} = cs) := by
  refine ⟨?_, ?_, ?_⟩
  · intro cs f c
    rw [filterCountries, List.mem_filter, countryPasses_eq_conj]
    simp [Bool.and_eq_true, and_assoc]
  · intro cs f
    exact List.filter_sublist cs
  · intro cs
    rw [filterCountries]
    exact List.filter_eq_self.mpr (fun c _ => countryPasses_empty c)

/-- C2: the parser returns 0 for the exact normalized strings "UTC",
"GMT" and "Z" and for an empty remainder after prefix stripping; for a
signed form it returns `sign * (hours * 60 + minutes_part)` with the
minute part defaulting to 0; and `parseOffset("UTC+05:30") = 330`,
`parseOffset("UTC-08:00") = -480`, `parseOffset("+09") = 540`. -/
theorem parseOffset_reference_values :
    parseUtcOffsetMinutes "UTC" = some 0 ∧ parseUtcOffsetMinutes "GMT" = some 0
    ∧ parseUtcOffsetMinutes "Z" = some 0
    ∧ (∀ s : String, stripUtcGmt (jsToUpper (jsTrim s.toList)) = [] →
        parseUtcOffsetMinutes s = some 0)
    ∧ parseUtcOffsetMinutes "UTC+05:30" = some 330
    ∧ parseUtcOffsetMinutes "UTC-08:00" = some (-480)
    ∧ parseUtcOffsetMinutes "+09" = some 540
    ∧ (∀ (rest : List Char) (h m : Nat), parseHM rest = some (h, m) →
        parseSignedRemainder ('+' :: rest) = some ((h : Int) * 60 + (m : Int))
        ∧ parseSignedRemainder ('-' :: rest) = some (-((h : Int) * 60 + (m : Int)))) := by
  refine ⟨by decide, by decide, by decide, ?_, by decide, by decide, by decide, ?_⟩
  · intro s hs
    unfold parseUtcOffsetMinutes parseOffsetChars
    rw [hs]
    split
    · rfl
    · rfl
  · intro rest h m hp
    constructor <;> simp [parseSignedRemainder, hp]

/-- Witness for C2: the empty-remainder and signed-form parts applied at
concrete inputs. -/
theorem parseOffset_reference_values_witness :
    parseUtcOffsetMinutes "UTCGMT" = some 0
    ∧ parseSignedRemainder ['+', '0', '9'] = some 540 := by
  constructor
  · exact parseOffset_reference_values.2.2.2.1 "UTCGMT" (by decide)
  · have h9 := (parseOffset_reference_values.2.2.2.2.2.2.2 ['0', '9'] 9 0 (by decide)).1
    norm_num at h9
    exact h9

/-- C3: the parser returns the invalid sentinel (`none`, never a thrown
error) on every input whose remainder after normalization and prefix
stripping fails the sign-and-digits pattern; in particular a bare
unsigned number, letters, multiple colons and a more-than-two-digit hour
part are all invalid. -/
theorem parseOffset_invalid_inputs :
    (∀ s : String,
        specialZero (jsToUpper (jsTrim s.toList)) = false →
        stripUtcGmt (jsToUpper (jsTrim s.toList)) ≠ [] →
        signShape (stripUtcGmt (jsToUpper (jsTrim s.toList))) = false →
        parseUtcOffsetMinutes s = none)
    ∧ (∀ l : List Char, (parseSignedRemainder l).isSome = signShape l)
    ∧ parseUtcOffsetMinutes "5" = none
    ∧ parseUtcOffsetMinutes "garbage" = none
    ∧ parseUtcOffsetMinutes "+1a" = none
    ∧ parseUtcOffsetMinutes "+1:23:45" = none
    ∧ parseUtcOffsetMinutes "+100:00" = none := by
  refine ⟨?_, ?_, by decide, by decide, by decide, by decide, by decide⟩
  · intro s h1 h2 h3
    have hl : (stripUtcGmt (jsToUpper (jsTrim s.toList))).isEmpty = false := by
      cases hl : (stripUtcGmt (jsToUpper (jsTrim s.toList))).isEmpty
      · rfl
      · rw [List.isEmpty_iff] at hl
        exact absurd hl h2
    unfold parseUtcOffsetMinutes parseOffsetChars
    rw [h1, hl]
    simp only [Bool.false_eq_true, if_false]
    exact parseSignedRemainder_eq_none _ h3
  · intro l
    rcases l with _ | ⟨c, rest⟩
    · rfl
    · simp only [parseSignedRemainder, signShape]
      cases hc : (c == '+' || c == '-')
      · simp
      · rcases hp : parseHM rest with _ | ⟨h, m⟩ <;>
          simp [← parseHM_isSome_eq_shape, hp]

/-- Witness for C3: the general rejection statement applied to the bare
unsigned input "5". -/
theorem parseOffset_invalid_inputs_witness :
    parseUtcOffsetMinutes "5" = none :=
  parseOffset_invalid_inputs.1 "5" (by decide) (by decide) (by decide)

/-- C4 counterexample: with the capital criterion active, a record whose
capital is absent is KEPT by `filterCountries`, not excluded. -/
theorem capital_absent_kept_cex :
    demoNoCapital.capital = none
    ∧ filterCountries [demoNoCapital] { capital := some "a" } = [demoNoCapital] :=
  ⟨rfl, by decide⟩

/-- C4 amended: when the capital criterion is present, the capital
predicate applies only to records with a truthy (non-empty) capital —
those are kept iff their capital contains the criterion
case-insensitively — while records with no capital pass the capital
check vacuously and are kept. -/
theorem capital_filter_truthy_only :
    (∀ (cs : List Country) (crit : String) (c : Country),
        c ∈ cs → c.capital = none → c ∈ filterCountries cs { capital := some crit })
    ∧ (∀ (f : SearchParams) (c : Country) (s : String),
        c.capital = some s → s.toList ≠ [] →
        capitalPasses f c =
          (!present f.capital ||
            includesSub (jsToLower s.toList) (jsToLower (optStr f.capital).toList))) := by
  constructor
  · intro cs crit c hmem hcap
    rw [filterCountries, List.mem_filter]
    refine ⟨hmem, ?_⟩
    simp [countryPasses, nameBlocks, capitalBlocks, regionBlocks, tzActive, present,
      capTruthy, hcap]
  · intro f c s hcap hs
    have hne : s.toList.isEmpty = false := by
      cases hd : s.toList.isEmpty
      · rfl
      · exact absurd (List.isEmpty_iff.mp hd) hs
    have ht : capTruthy c.capital = true := by
      rw [hcap]
      show (!s.toList.isEmpty) = true
      rw [hne]
      rfl
    have hcs : optStr c.capital = s := by rw [hcap]; rfl
    unfold capitalPasses capitalBlocks
    rw [ht, hcs]
    cases hp : present f.capital <;>
      cases hX : includesSub (jsToLower s.toList) (jsToLower (optStr f.capital).toList) <;>
        rfl

/-- Witness for C4 amended: a record with no capital survives an active
capital filter. -/
theorem capital_filter_truthy_only_witness :
    demoNoCapital ∈ filterCountries [demoNoCapital] { capital := some "zzz" } :=
  capital_filter_truthy_only.1 [demoNoCapital] "zzz" demoNoCapital (by simp) rfl

/-- C5 counterexample: with the timezone criterion active, a record with
an empty timezone list is KEPT by `filterCountries`. -/
theorem empty_timezones_kept_cex :
    demoNoTz.timezones = []
    ∧ filterCountries [demoNoTz] { timezone := some "UTC+01" } = [demoNoTz] :=
  ⟨rfl, by decide⟩

/-- C5 amended: when the timezone criterion is present, records with an
empty timezone list skip the timezone check entirely (the criterion
imposes no constraint on them), so they are always included when no
other criterion blocks them. -/
theorem tz_empty_list_unconstrained :
    (∀ (cs : List Country) (crit : String) (c : Country),
        c ∈ cs → c.timezones = [] → c ∈ filterCountries cs { timezone := some crit })
    ∧ (∀ (f : SearchParams) (c : Country), c.timezones = [] →
        countryPasses f c = (namePasses f c && capitalPasses f c && regionPasses f c)) := by
  constructor
  · intro cs crit c hmem htz
    rw [filterCountries, List.mem_filter]
    refine ⟨hmem, ?_⟩
    simp [countryPasses, nameBlocks, capitalBlocks, regionBlocks, tzActive, present, htz]
  · intro f c htz
    have hact : tzActive f c = false := by simp [tzActive, htz]
    rw [countryPasses_eq_conj]
    simp [timezonePasses, hact]

/-- Witness for C5 amended: a record with an empty timezone list
survives an active timezone filter. -/
theorem tz_empty_list_unconstrained_witness :
    demoNoTz ∈ filterCountries [demoNoTz] { timezone := some "UTC-12" } :=
  tz_empty_list_unconstrained.1 [demoNoTz] "UTC-12" demoNoTz (by simp) rfl

/-- C6 counterexample: the claim's rule (c) strips ALL colons, so it
matches the criterion "utc+010000" against the entry "UTC+01:00:00",
but the source's `replace(":", "")` strips only the first colon and the
record is excluded. -/
theorem tz_colon_strip_cex :
    tzEntryMatchesAllColons "utc+010000".toList "UTC+01:00:00" = true
    ∧ tzEntryMatches "utc+010000".toList "UTC+01:00:00" = false
    ∧ demoTwoColons.timezones = ["UTC+01:00:00"]
    ∧ filterCountries [demoTwoColons] { timezone := some "utc+010000" } = [] :=
  ⟨by decide, by decide, rfl, by decide⟩

/-- C6 amended: when the timezone criterion is present and a record's
timezone list is non-empty, the record matches iff some entry satisfies
(a) exact case-insensitive equality after trimming, (b) substring
containment in either direction, or (c) when both sides begin with
"utc" after normalization, equality after stripping that prefix and the
FIRST colon character from each side; "UTC+01" still matches a record
listing "UTC+01:00". -/
theorem timezone_match_rules :
    (∀ (filterTz : List Char) (tz : String),
        tzEntryMatches filterTz tz = true ↔
          (jsTrim (jsToLower tz.toList) = filterTz
            ∨ includesSub (jsTrim (jsToLower tz.toList)) filterTz = true
            ∨ includesSub filterTz (jsTrim (jsToLower tz.toList)) = true
            ∨ ("utc".toList.isPrefixOf filterTz = true
                ∧ "utc".toList.isPrefixOf (jsTrim (jsToLower tz.toList)) = true
                ∧ removeFirstOcc [':'] (removeFirstOcc "utc".toList filterTz)
                    = removeFirstOcc [':']
                        (removeFirstOcc "utc".toList (jsTrim (jsToLower tz.toList))))))
    ∧ (∀ (crit : String) (c : Country), present (some crit) = true → c.timezones ≠ [] →
        (timezonePasses { timezone := some crit } c = true ↔
          ∃ tz ∈ c.timezones, tzEntryMatches (jsTrim (jsToLower crit.toList)) tz = true))
    ∧ filterCountries [demoFrance] { timezone := some "UTC+01" } = [demoFrance]
    ∧ tzEntryMatches (jsTrim (jsToLower "1".toList)) "UTC+01:00" = true := by
  refine ⟨?_, ?_, by decide, by decide⟩
  · intro filterTz tz
    simp only [tzEntryMatches]
    split_ifs with hA hB hC
    · exact iff_of_true rfl (Or.inl (beq_iff_eq.mp hA))
    · refine iff_of_true rfl ?_
      rw [Bool.or_eq_true] at hB
      rcases hB with h | h
      · exact Or.inr (Or.inl h)
      · exact Or.inr (Or.inr (Or.inl h))
    · rw [beq_iff_eq]
      rw [Bool.and_eq_true] at hC
      obtain ⟨hC1, hC2⟩ := hC
      constructor
      · intro hD
        exact Or.inr (Or.inr (Or.inr ⟨hC1, hC2, hD⟩))
      · rintro (h | h | h | h)
        · exact absurd (beq_iff_eq.mpr h) hA
        · exact absurd (by rw [h]; rfl) hB
        · exact absurd (by rw [h]; exact Bool.or_true _) hB
        · exact h.2.2
    · refine iff_of_false (by simp) ?_
      rintro (h | h | h | h)
      · exact absurd (beq_iff_eq.mpr h) hA
      · exact absurd (by rw [h]; rfl) hB
      · exact absurd (by rw [h]; exact Bool.or_true _) hB
      · exact absurd (by rw [h.1, h.2.1]; rfl) hC
  · intro crit c hpres htz
    have hl : c.timezones.isEmpty = false := by
      cases hl : c.timezones.isEmpty
      · rfl
      · rw [List.isEmpty_iff] at hl
        exact absurd hl htz
    simp only [timezonePasses, tzActive, hasMatchingTimezone, hl, hpres]
    simp [List.any_eq_true, optStr]

/-- Witness for C6 amended: the record-level equivalence applied at a
concrete record and criterion. -/
theorem timezone_match_rules_witness :
    timezonePasses { timezone := some "UTC+01" } demoFrance = true ↔
      ∃ tz ∈ demoFrance.timezones,
        tzEntryMatches (jsTrim (jsToLower "UTC+01".toList)) tz = true :=
  timezone_match_rules.2.1 "UTC+01" demoFrance (by decide) (by decide)

/-- C7 counterexample: the source strips BOTH a leading "UTC" and then a
leading "GMT": "UTCGMT+01" parses to 60, while a parser that strips at
most one prefix (as the claim states) rejects it. -/
theorem double_strip_cex :
    parseUtcOffsetMinutes "UTCGMT+01" = some 60
    ∧ parseOffsetSingleStrip "UTCGMT+01" = none :=
  ⟨by decide, by decide⟩

/-- C7 amended: after trimming and uppercasing (when the string is not
an exact "UTC"/"GMT"/"Z"), the parser first strips one leading "UTC" if
present, then strips one leading "GMT" from the result if present: the
normalized string decomposes exactly into the stripped prefixes followed
by the remainder, so at most two prefixes (a "UTC" followed by a "GMT")
are ever removed, each only when the string starts with it. -/
theorem stripUtcGmt_decomposition :
    ∀ str : List Char,
      str = (if "UTC".toList.isPrefixOf str then "UTC".toList else [])
        ++ (if "GMT".toList.isPrefixOf
              (if "UTC".toList.isPrefixOf str then str.drop 3 else str)
            then "GMT".toList else [])
        ++ stripUtcGmt str := by
  intro str
  unfold stripUtcGmt stripGmtStep
  cases h1 : "UTC".toList.isPrefixOf str
  · simp only [Bool.false_eq_true, if_false, List.nil_append]
    cases h2 : "GMT".toList.isPrefixOf str
    · simp
    · simpa using isPrefixOf_decomp "GMT".toList str h2
  · simp only [if_true, List.cons_append, List.nil_append]
    have hu := isPrefixOf_decomp "UTC".toList str h1
    cases h2 : "GMT".toList.isPrefixOf (str.drop 3)
    · simp only [Bool.false_eq_true, if_false, List.nil_append]
      simpa using hu
    · have hg := isPrefixOf_decomp "GMT".toList (str.drop 3) h2
      have hlen : "GMT".toList.length = 3 := rfl
      rw [hlen] at hg
      simp only [if_true]
      calc str = "UTC".toList ++ str.drop 3 := by simpa using hu
        _ = "UTC".toList ++ ("GMT".toList ++ (str.drop 3).drop 3) := by rw [← hg]
        _ = _ := by simp

/-- C8: the local-time renderer applies the offset as a flat linear
shift of the injected UTC instant (`target = nowUtcMillis +
offsetMinutes * 60000`), so the displayed time-of-day advances by
exactly `m` minutes modulo 24 hours relative to offset 0; as a pure
function of `(m, t)` it is deterministic. -/
theorem renderLocalTime_minute_shift :
    ∀ (m t : Int),
      timeForOffsetTargetMs t m = t + m * 60000
      ∧ renderLocalTimeMinute m t = (renderLocalTimeMinute 0 t + m) % 1440 := by
  intro m t
  refine ⟨rfl, ?_⟩
  simp only [renderLocalTimeMinute, minuteOfDay, timeForOffsetTargetMs]
  omega

/-- C9: every successful parse lies within [-6039, 6039] (hour and
minute parts are each at most 99), minute parts 60–99 are accepted
("+00:99" parses to 99), and results outside the conventional
[-720, 840] range occur ("+99:99" parses to 6039). -/
theorem parseOffset_result_bounds :
    (∀ (s : String) (v : Int), parseUtcOffsetMinutes s = some v → -6039 ≤ v ∧ v ≤ 6039)
    ∧ parseUtcOffsetMinutes "+00:99" = some 99
    ∧ parseUtcOffsetMinutes "+99:99" = some 6039
    ∧ parseUtcOffsetMinutes "-99:99" = some (-6039) := by
  refine ⟨?_, by decide, by decide, by decide⟩
  intro s v hv
  unfold parseUtcOffsetMinutes parseOffsetChars at hv
  split at hv
  · simp only [Option.some.injEq] at hv
    omega
  · split at hv
    · simp only [Option.some.injEq] at hv
      omega
    · exact parseSignedRemainder_bounds _ v hv

/-- Witness for C9: the bound applied to the concrete parse of "+99:99". -/
theorem parseOffset_result_bounds_witness :
    -6039 ≤ (6039 : Int) ∧ (6039 : Int) ≤ 6039 :=
  parseOffset_result_bounds.1 "+99:99" 6039 (by decide)

/-- C10: when the remote search call throws, `search` falls back to the
client-side filter over the cached full list whenever that cache is
non-empty — for any criteria — leaving the error cleared; the error
state is set (and the displayed list left unchanged) only when the cache
is empty. -/
theorem search_failure_fallback :
    (∀ (allCs prev : List Country) (params : SearchParams) (msg : String),
        allCs ≠ [] →
        searchApply allCs prev params (.failed msg)
          = { countries := filterCountries allCs params, error := none })
    ∧ (∀ (prev : List Country) (params : SearchParams) (msg : String),
        searchApply [] prev params (.failed msg)
          = { countries := prev, error := some msg }) := by
  constructor
  · intro allCs prev params msg hne
    have h : allCs.isEmpty = false := by
      cases allCs with
      | nil => exact absurd rfl hne
      | cons a t => rfl
    simp [searchApply, h]
  · intro prev params msg
    simp [searchApply]

/-- Witness for C10: the failure fallback applied at a concrete
non-empty cache and a name-only (non-timezone) criterion. -/
theorem search_failure_fallback_witness :
    searchApply [demoFrance] [] { name := some "zz" } (.failed "err")
      = { countries := filterCountries [demoFrance] { name := some "zz" }, error := none } :=
  search_failure_fallback.1 [demoFrance] [] { name := some "zz" } "err" (by simp)

end CountryApp
